import Mathlib

/-!
Verification development for the WhatsApp-CRM lead ingestion pipeline.

The definitions below are a shallow embedding of the repository's source:

* `src/server/database.js` — the relational store (`createLead`,
  `findLeadByPhone`, `findLeadByWhatsAppId`, `updateLeadMessage`,
  `updateLeadStatus`, `getLeads` query construction, validation helpers).
  The store is modelled as a `List Lead`; SQL `UPDATE ... WHERE phone = $n`
  becomes a map over matching rows, `INSERT ... ON CONFLICT (phone) DO UPDATE`
  becomes a find-then-merge, and the schema's `UNIQUE` constraint on
  `whatsapp_id` is modelled as an explicit conflict check that makes the
  operation fail (the thrown error / rollback becomes `Except.error`).
* `src/server/index.cjs` — the message processor `processMessage` together
  with the `processedMessages` de-duplication cache and its periodic sweep.
* the flat-file store (`simple_db`, JSON file of leads) — `fCreateLead`,
  `fUpdateLeadMessage`, `fGetLeads`, `fGetLeadStats`, `readDb`.

Timestamps (`NOW()`, `Date.now()`, `toISOString`) are modelled as `Nat`
parameters passed in by the caller; generated ids (`gen_random_uuid`,
`crypto.randomUUID`) are `String` parameters.
-/

deriving instance DecidableEq for Except

namespace Crm

/-- JavaScript `s.trim() === ''` (also covering `!s` for the empty string):
every character of the body is whitespace. -/
def isBlank (s : String) : Bool :=
  s.toList.all (fun c => c.isWhitespace)

/-- JavaScript `s.split(sep)[0]` for a single-character separator: the
longest prefix not containing the separator. -/
def splitHead (s : String) (sep : Char) : String :=
  String.mk (s.toList.takeWhile (fun c => c ≠ sep))

/-- JavaScript `x || null` on an optional string: `null`/`undefined` and the
empty string are falsy and collapse to `none`. -/
def strOr (x : Option String) : Option String :=
  match x with
  | none => none
  | some s => if s = "" then none else some s

/-- JavaScript `x || d` with a string default: returns `d` when `x` is
absent or empty. -/
def orD (x : Option String) (d : String) : String :=
  match strOr x with
  | some s => s
  | none => d

/-- SQL `COALESCE(a, b)` on nullable values. -/
def coalesce {α : Type} (a b : Option α) : Option α :=
  match a with
  | some x => some x
  | none => b

/-- A row of the `leads` table (`database.js`, `initDb` schema). -/
structure Lead where
  id : String
  phone : String
  name : Option String
  last_message : Option String
  source_message : Option String
  source_contact_name : Option String
  whatsapp_id : Option String
  status : String
  source : String
  value : Int
  product_name : Option String
  created_at : Nat
  updated_at : Nat
deriving DecidableEq, Repr

/-- The argument object of `createLead` (`database.js` line 126). -/
structure CreateData where
  phone : String
  name : Option String := none
  last_message : Option String := none
  source_message : Option String := none
  source_contact_name : Option String := none
  whatsapp_id : Option String := none
  status : Option String := none
  source : Option String := none
  value : Option Int := none
  product_name : Option String := none
deriving DecidableEq, Repr

/-- List `validStatuses` from `validateStatus` (`database.js` line 101). -/
def validStatuses : List String := ["new", "potential", "won", "lost", "contacted"]

/-- Function `validatePhone` (`database.js` lines 87-98): strip non-digits, require
8-15 digits. -/
def validatePhone (phone : String) : Except String String :=
  if phone = "" then .error "Phone number is required"
  else
    let cleaned := String.mk (phone.toList.filter Char.isDigit)
    if cleaned.length < 8 ∨ 15 < cleaned.length then
      .error ("Invalid phone number: " ++ phone)
    else .ok cleaned

/-- Function `validateStatus` (`database.js` lines 100-106). -/
def validateStatus (status : String) : Except String String :=
  if status ∈ validStatuses then .ok status
  else .error ("Invalid status: " ++ status ++ ". Must be one of: " ++
    String.intercalate ", " validStatuses)

/-- Function `validateValue` (`database.js` lines 108-117): absent means 0, negative
is rejected. -/
def validateValue (value : Option Int) : Except String Int :=
  match value with
  | none => .ok 0
  | some v => if v < 0 then .error "Value must be a non-negative number" else .ok v

/-- Whether setting the `whatsapp_id` of the row(s) with phone
`cleanedPhone` to `w` collides with the schema's `UNIQUE (whatsapp_id)`
constraint through some row with a different phone. -/
def widClash (db : List Lead) (cleanedPhone : String) (w : Option String) : Bool :=
  match w with
  | some ww => db.any (fun r => !(r.phone == cleanedPhone) && r.whatsapp_id == some ww)
  | none => false

/-- Whether inserting a fresh row with `whatsapp_id = w` collides with the
`UNIQUE (whatsapp_id)` constraint. -/
def widClashAll (db : List Lead) (w : Option String) : Bool :=
  match w with
  | some ww => db.any (fun r => r.whatsapp_id == some ww)
  | none => false

/-- The `DO UPDATE SET` arm of `createLead`'s upsert (`database.js` lines
154-163): `COALESCE(EXCLUDED.f, leads.f)` per field, `value` always taken
from the excluded row (it is never null after validation), `updated_at`
bumped; `phone`, `status`, `source`, `created_at`, `id` untouched. -/
def conflictMerge (now : Nat) (data : CreateData) (value : Int) (l : Lead) : Lead :=
  { l with
    name := coalesce (strOr data.name) l.name
    last_message := coalesce (strOr data.last_message) l.last_message
    source_message := coalesce (strOr data.source_message) l.source_message
    source_contact_name := coalesce (strOr data.source_contact_name) l.source_contact_name
    whatsapp_id := coalesce (strOr data.whatsapp_id) l.whatsapp_id
    value := value
    product_name := coalesce (strOr data.product_name) l.product_name
    updated_at := now }

/-- Function `createLead` (`database.js` lines 126-192): validate, then
`INSERT ... ON CONFLICT (phone) DO UPDATE`, returning the upserted row. -/
def createLead (now : Nat) (genId : String) (db : List Lead) (data : CreateData) :
    Except String (List Lead × Lead) :=
  match validatePhone data.phone with
  | .error e => .error e
  | .ok cleanedPhone =>
    match validateStatus (orD data.status "new") with
    | .error e => .error e
    | .ok status =>
      match validateValue data.value with
      | .error e => .error e
      | .ok value =>
        match db.find? (fun l => l.phone == cleanedPhone) with
        | some old =>
          let merged := conflictMerge now data value old
          if widClash db cleanedPhone merged.whatsapp_id then
            .error "duplicate key value violates unique constraint"
          else
            .ok (db.map (fun l => if l.phone == cleanedPhone
                                  then conflictMerge now data value l else l),
                 merged)
        | none =>
          if widClashAll db (strOr data.whatsapp_id) then
            .error "duplicate key value violates unique constraint"
          else
            let newLead : Lead :=
              { id := genId
                phone := cleanedPhone
                name := strOr data.name
                last_message := strOr data.last_message
                source_message := strOr data.source_message
                source_contact_name := strOr data.source_contact_name
                whatsapp_id := strOr data.whatsapp_id
                status := status
                source := (data.source).getD "whatsapp"
                value := value
                product_name := strOr data.product_name
                created_at := now
                updated_at := now }
            .ok (db ++ [newLead], newLead)

/-- Function `findLeadByPhone` (`database.js` lines 197-207). -/
def findLeadByPhone (db : List Lead) (phone : String) : Except String (Option Lead) :=
  match validatePhone phone with
  | .error e => .error e
  | .ok cleaned => .ok (db.find? (fun l => l.phone == cleaned))

/-- Function `findLeadByWhatsAppId` (`database.js` lines 212-222): falsy id returns
null without touching the store. -/
def findLeadByWhatsAppId (db : List Lead) (whatsappId : Option String) : Option Lead :=
  match strOr whatsappId with
  | none => none
  | some w => db.find? (fun l => l.whatsapp_id == some w)

/-- The `SET` clause of `updateLeadMessage` (`database.js` lines 235-243)
applied to one row. -/
def messageUpdate (now : Nat) (m w n : Option String) (l : Lead) : Lead :=
  { l with
    last_message := m
    whatsapp_id := coalesce w l.whatsapp_id
    name := coalesce n l.name
    updated_at := now }

/-- Function `updateLeadMessage` (`database.js` lines 227-262): the parameters are
null-normalised (`x || null`), the `UPDATE ... WHERE phone` hits every row
with the cleaned phone, an update that would duplicate a `whatsapp_id`
held by a row with another phone violates `UNIQUE (whatsapp_id)` and
rolls back. Returns the updated row, or `none` when no row matched. -/
def updateLeadMessage (now : Nat) (db : List Lead) (phone : String)
    (message whatsappId name : Option String) :
    Except String (List Lead × Option Lead) :=
  match validatePhone phone with
  | .error e => .error e
  | .ok cleanedPhone =>
    let m := strOr message
    let w := strOr whatsappId
    let n := strOr name
    match db.find? (fun l => l.phone == cleanedPhone) with
    | none => .ok (db, none)
    | some old =>
      if widClash db cleanedPhone (coalesce w old.whatsapp_id) then
        .error "duplicate key value violates unique constraint"
      else
        .ok (db.map (fun l => if l.phone == cleanedPhone
                              then messageUpdate now m w n l else l),
             some (messageUpdate now m w n old))

/-- Function `updateLeadStatus` (`database.js` lines 267-299). -/
def updateLeadStatus (now : Nat) (db : List Lead) (id : String) (status : String) :
    Except String (List Lead × Option Lead) :=
  match validateStatus status with
  | .error e => .error e
  | .ok s =>
    match db.find? (fun l => l.id == id) with
    | none => .ok (db, none)
    | some old =>
      .ok (db.map (fun l => if l.id == id
                            then { l with status := s, updated_at := now } else l),
           some { old with status := s, updated_at := now })

/-! ## `getLeads` query construction (`database.js` lines 340-390)

`getLeads` assembles a SQL string with numbered placeholders `$n` and a
parallel array of bound values. We model the placeholder indices appended to
the query text and the number of values pushed, tracking `paramCount`
exactly as the source does. A query is accepted by the driver only when
every referenced placeholder has a bound value. -/

/-- Filters accepted by `getLeads`. Dates arrive as (possibly empty) query
strings; `limit`/`offset` arrive already `parseInt`ed. -/
structure LeadFilters where
  status : Option String := none
  startDate : Option String := none
  endDate : Option String := none
  search : Option String := none
  limit : Option Nat := none
  offset : Option Nat := none
deriving DecidableEq, Repr

/-- The placeholder/value bookkeeping of `getLeads`'s query builder. -/
structure QueryBuild where
  placeholders : List Nat
  valueCount : Nat
  paramCount : Nat
deriving DecidableEq, Repr

/-- JavaScript truthiness of an optional number (`0` is falsy). -/
def truthyNat (o : Option Nat) : Option Nat :=
  match o with
  | some n => if n = 0 then none else some n
  | none => none

/-- A filter clause that uses `$paramCount`, pushes one value and then
increments `paramCount` (status / startDate / endDate). -/
def qbClause (qb : QueryBuild) : QueryBuild :=
  { placeholders := qb.placeholders ++ [qb.paramCount]
    valueCount := qb.valueCount + 1
    paramCount := qb.paramCount + 1 }

/-- The search clause: `$paramCount` appears three times (name, phone,
last_message), one value is pushed, then `paramCount` is incremented. -/
def qbSearch (qb : QueryBuild) : QueryBuild :=
  { placeholders := qb.placeholders ++ [qb.paramCount, qb.paramCount, qb.paramCount]
    valueCount := qb.valueCount + 1
    paramCount := qb.paramCount + 1 }

/-- The LIMIT clause (`database.js` lines 373-376): uses `$paramCount` and
pushes a value but does NOT increment `paramCount`. -/
def qbLimit (qb : QueryBuild) : QueryBuild :=
  { qb with
    placeholders := qb.placeholders ++ [qb.paramCount]
    valueCount := qb.valueCount + 1 }

/-- The OFFSET clause (`database.js` lines 378-382): increments `paramCount`
first, then uses the incremented index and pushes a value. -/
def qbOffset (qb : QueryBuild) : QueryBuild :=
  { placeholders := qb.placeholders ++ [qb.paramCount + 1]
    valueCount := qb.valueCount + 1
    paramCount := qb.paramCount + 1 }

/-- The full builder of `getLeads` (`database.js` lines 340-382), starting
from `paramCount = 1`, applying each clause when its filter is truthy; a
supplied status is validated first and an invalid one throws. -/
def getLeadsQuery (filters : LeadFilters) : Except String QueryBuild :=
  let qb0 : QueryBuild := ⟨[], 0, 1⟩
  match (match strOr filters.status with
         | some s => (validateStatus s).map (fun _ => true)
         | none => .ok false) with
  | .error e => .error e
  | .ok hasStatus =>
    let qb1 := if hasStatus then qbClause qb0 else qb0
    let qb2 := if (strOr filters.startDate).isSome then qbClause qb1 else qb1
    let qb3 := if (strOr filters.endDate).isSome then qbClause qb2 else qb2
    let qb4 := if (strOr filters.search).isSome then qbSearch qb3 else qb3
    let qb5 := if (truthyNat filters.limit).isSome then qbLimit qb4 else qb4
    let qb6 := if (truthyNat filters.offset).isSome then qbOffset qb5 else qb5
    .ok qb6

/-- A built query is rejected by the driver when some placeholder index
exceeds the number of bound values. -/
def queryUnderBound (qb : QueryBuild) : Bool :=
  qb.placeholders.any (fun i => qb.valueCount < i)

/-! ## Flat-file store (`simple_db`, `src/unnamed/part_002`)

Leads live in a JSON document `{ leads: [...] }`; a lead object's fields are
whatever keys were written, so every field is optional here. -/

/-- A lead object as stored in `leads.json`. -/
structure FLead where
  id : Option String := none
  phone : Option String := none
  name : Option String := none
  last_message : Option String := none
  source_message : Option String := none
  whatsapp_id : Option String := none
  status : Option String := none
  source : Option String := none
  value : Option Int := none
  created_at : Option Nat := none
  updated_at : Option Nat := none
deriving DecidableEq, Repr

/-- The `{ leads: [...] }` document. -/
structure FileDb where
  leads : List FLead
deriving DecidableEq, Repr

/-- The `data` object passed to the flat-file `createLead`; a `some` field
models a key present in the object. -/
structure FCreateData where
  phone : Option String := none
  name : Option String := none
  last_message : Option String := none
  whatsapp_id : Option String := none
  status : Option String := none
  source : Option String := none
  value : Option Int := none
deriving DecidableEq, Repr

/-- JavaScript object spread `{ ...old, ...data }`: keys present in `data`
override `old`. -/
def fSpread (old : FLead) (data : FCreateData) : FLead :=
  { old with
    phone := coalesce data.phone old.phone
    name := coalesce data.name old.name
    last_message := coalesce data.last_message old.last_message
    whatsapp_id := coalesce data.whatsapp_id old.whatsapp_id
    status := coalesce data.status old.status
    source := coalesce data.source old.source
    value := coalesce data.value old.value }

/-- Replace the first element satisfying `p` by its image under `f`
(JavaScript `find` returning a mutable reference). -/
def updateFirst {α : Type} (p : α → Bool) (f : α → α) : List α → List α
  | [] => []
  | x :: xs => if p x then f x :: xs else x :: updateFirst p f xs

/-- Flat-file `createLead` (`part_002` lines 30-53): if a lead with the same
phone exists, overwrite it with `{ ...old, ...data, updated_at }`; otherwise
push a fresh lead whose `status` defaults to `'new'` and whose `source` is
forced to `'whatsapp'`. Never fails. -/
def fCreateLead (now : Nat) (genId : String) (db : FileDb) (data : FCreateData) :
    FileDb × FLead :=
  match db.leads.find? (fun l => l.phone == data.phone) with
  | some old =>
    let updated := { fSpread old data with updated_at := some now }
    (⟨updateFirst (fun l => l.phone == data.phone)
        (fun l => { fSpread l data with updated_at := some now }) db.leads⟩,
     updated)
  | none =>
    let newLead : FLead :=
      { id := some genId
        phone := data.phone
        name := data.name
        last_message := data.last_message
        whatsapp_id := data.whatsapp_id
        status := some (orD data.status "new")
        source := some "whatsapp"
        value := data.value
        created_at := some now
        updated_at := some now }
    (⟨db.leads ++ [newLead]⟩, newLead)

/-- Flat-file `findLeadByPhone` (`part_002` lines 55-58). -/
def fFindLeadByPhone (db : FileDb) (phone : String) : Option FLead :=
  db.leads.find? (fun l => l.phone == some phone)

/-- Flat-file `findLeadByWhatsAppId` (`part_002` lines 60-63). -/
def fFindLeadByWhatsAppId (db : FileDb) (wid : String) : Option FLead :=
  db.leads.find? (fun l => l.whatsapp_id == some wid)

/-- Flat-file `updateLeadMessage` (`part_002` lines 65-77): always writes
`last_message`, writes `whatsapp_id`/`name` only when truthy, bumps
`updated_at`, and mutates only the first lead matching the phone. -/
def fUpdateLeadMessage (now : Nat) (db : FileDb) (phone msg : String)
    (wid name : Option String) : FileDb × Option FLead :=
  match db.leads.find? (fun l => l.phone == some phone) with
  | none => (db, none)
  | some old =>
    let upd : FLead → FLead := fun l =>
      { l with
        last_message := some msg
        whatsapp_id := coalesce (strOr wid) l.whatsapp_id
        name := coalesce (strOr name) l.name
        updated_at := some now }
    (⟨updateFirst (fun l => l.phone == some phone) upd db.leads⟩, some (upd old))

/-- Flat-file `getLeads` (`part_002` lines 91-95): only the status filter is
applied, leads are sorted by descending `updated_at` (a missing date sorts
as 0, mirroring `new Date(undefined)` producing no ordering signal). -/
def fGetLeads (db : FileDb) (status : Option String) : List FLead :=
  let base : List FLead := match strOr status with
    | some s => db.leads.filter (fun l => l.status == some s)
    | none => db.leads
  base.mergeSort (fun a b => (b.updated_at).getD 0 ≤ (a.updated_at).getD 0)

/-- The aggregate returned by the flat-file `getLeadStats`
(`part_002` lines 97-105). -/
structure FStats where
  total : Nat
  newCount : Nat
  potential : Nat
  won : Nat
deriving DecidableEq, Repr

/-- Flat-file `getLeadStats`. -/
def fGetLeadStats (db : FileDb) : FStats :=
  { total := db.leads.length
    newCount := (db.leads.filter (fun l => l.status == some "new")).length
    potential := (db.leads.filter (fun l => l.status == some "potential")).length
    won := (db.leads.filter (fun l => l.status == some "won")).length }

/-- The state of the backing `leads.json` file: absent, or some text. -/
inductive FileState where
  | missing : FileState
  | content : String → FileState
deriving DecidableEq, Repr

/-- Function `readDb` (`part_002` lines 7-16): a missing file and unparseable JSON
both yield `{ leads: [] }`; `parse` stands for `JSON.parse`, with `none`
modelling a thrown parse error. -/
def readDb (parse : String → Option FileDb) (fs : FileState) : FileDb :=
  match fs with
  | .missing => ⟨[]⟩
  | .content s =>
    match parse s with
    | some db => db
    | none => ⟨[]⟩

/-- Operation `getLeads` as invoked against the file system state. -/
def fGetLeadsFS (parse : String → Option FileDb) (fs : FileState)
    (status : Option String) : List FLead :=
  fGetLeads (readDb parse fs) status

/-- Operation `findLeadByPhone` against the file system state. -/
def fFindLeadByPhoneFS (parse : String → Option FileDb) (fs : FileState)
    (phone : String) : Option FLead :=
  fFindLeadByPhone (readDb parse fs) phone

/-- Operation `findLeadByWhatsAppId` against the file system state. -/
def fFindLeadByWhatsAppIdFS (parse : String → Option FileDb) (fs : FileState)
    (wid : String) : Option FLead :=
  fFindLeadByWhatsAppId (readDb parse fs) wid

/-- Operation `getLeadStats` against the file system state. -/
def fGetLeadStatsFS (parse : String → Option FileDb) (fs : FileState) : FStats :=
  fGetLeadStats (readDb parse fs)

/-! ## The message processor (`src/server/index.cjs`)

`processMessage` (lines 243-353) with the `processedMessages` cache
(lines 44-55). Socket emissions are recorded in an `emits` list; the
database branch's try/catch (a store error is logged and the event dropped,
lines 341-344) shows up as keeping the previous store on `Except.error`. -/

/-- The 30-second retention window of the de-duplication cache
(`PROCESSED_MESSAGES_TTL`, `index.cjs` line 44). -/
def PROCESSED_MESSAGES_TTL : Nat := 30000

/-- The periodic cleanup sweep (`index.cjs` lines 48-55): delete every
entry whose timestamp is older than the retention window. -/
def sweepProcessed (now : Nat) (m : List (String × Nat)) : List (String × Nat) :=
  m.filter (fun e => !(decide (PROCESSED_MESSAGES_TTL < now - e.2)))

/-- Check `processedMessages.has(whatsappId)` on the cache. -/
def dedupSeen (m : List (String × Nat)) (w : String) : Bool :=
  (m.lookup w).isSome

/-- The result of `msg.getContact()`: `pushname` and `name` may be absent
or empty. -/
structure Contact where
  pushname : Option String := none
  name : Option String := none
deriving DecidableEq, Repr

/-- A raw transport message as consumed by `processMessage`. `id` is the
serialised message id (`none` models a missing id); `contact` is the
outcome of `getContact` (`none` models the method being absent or
throwing). -/
structure Msg where
  from_ : String
  to_ : String
  fromMe : Bool
  body : String
  id : Option String := none
  contact : Option Contact := none
deriving DecidableEq, Repr

/-- A payload emitted on the `new_message` socket channel. -/
structure EmitPayload where
  phone : String
  name : String
  message : String
  whatsapp_id : String
  fromMe : Bool
  is_fast_emit : Bool
deriving DecidableEq, Repr

/-- The server state touched by `processMessage`: the de-duplication
cache, the lead store, and the stream of socket emissions. -/
structure ServerState where
  processed : List (String × Nat)
  db : List Lead
  emits : List EmitPayload
deriving DecidableEq, Repr

/-- Expression `msg.fromMe ? msg.to.split('@')[0] : msg.from.split('@')[0]`
(`index.cjs` line 267). -/
def rawNumberOf (msg : Msg) : String :=
  splitHead (if msg.fromMe then msg.to_ else msg.from_) '@'

/-- Contact-name resolution (`index.cjs` lines 292-301):
`contact.pushname || contact.name || '+' + rawNumber`, falling back to the
placeholder when `getContact` is unavailable or throws. -/
def resolveContactName (base : String) (c : Option Contact) : String :=
  match c with
  | none => base
  | some ct => orD ct.pushname (orD ct.name base)

/-- The database-persistence step of `processMessage` (`index.cjs` lines
315-340): find by WhatsApp id, then by phone (whose validation may throw),
then update the existing lead or create a new one. -/
def ingestPersist (now : Nat) (genId : String) (db : List Lead)
    (rawNumber body wid contactName : String) : Except String (List Lead) :=
  match findLeadByWhatsAppId db (some wid) with
  | some _ =>
    (updateLeadMessage now db rawNumber (some body) (some wid) (some contactName)).map
      Prod.fst
  | none =>
    match findLeadByPhone db rawNumber with
    | .error e => .error e
    | .ok (some _) =>
      (updateLeadMessage now db rawNumber (some body) (some wid) (some contactName)).map
        Prod.fst
    | .ok none =>
      (createLead now genId db
        { phone := rawNumber
          name := some contactName
          last_message := some body
          whatsapp_id := some wid
          source := some "whatsapp"
          status := some "new" }).map Prod.fst

/-- The persistence step with its enclosing try/catch: a store error is
non-fatal and leaves the store untouched (`index.cjs` lines 341-344). -/
def ingestApply (now : Nat) (genId : String) (db : List Lead)
    (rawNumber body wid contactName : String) : List Lead :=
  match ingestPersist now genId db rawNumber body wid contactName with
  | .ok db' => db'
  | .error _ => db

/-- Function `processMessage` (`index.cjs` lines 243-353). `hasDbUrl` is the
`process.env.DATABASE_URL && db` guard on the persistence branch. -/
def processMessage (now : Nat) (genId : String) (hasDbUrl : Bool)
    (st : ServerState) (msg : Msg) : ServerState :=
  if msg.from_ == "status@broadcast" then st
  else if isBlank msg.body then st
  else
    match strOr msg.id with
    | none => st
    | some wid =>
      if dedupSeen st.processed wid then st
      else
        let st1 : ServerState := { st with processed := (wid, now) :: st.processed }
        let rawNumber := rawNumberOf msg
        if rawNumber.length < 5 then st1
        else
          let fastName := "~" ++ rawNumber
          let fast : EmitPayload :=
            ⟨rawNumber, fastName, msg.body, wid, msg.fromMe, true⟩
          let st2 : ServerState := { st1 with emits := st1.emits ++ [fast] }
          let contactName := resolveContactName ("+" ++ rawNumber) msg.contact
          let st3 : ServerState :=
            if contactName == fastName then st2
            else { st2 with emits := st2.emits ++
                    [⟨rawNumber, contactName, msg.body, wid, msg.fromMe, false⟩] }
          if hasDbUrl then
            { st3 with db := ingestApply now genId st3.db rawNumber msg.body wid contactName }
          else st3

/-- The drop conditions of `processMessage` in source order: the reserved
status-broadcast sender, an empty/whitespace body, a missing (or empty)
message id, a duplicate id caught by the de-duplication cache, and a raw
number shorter than 5 characters. -/
def dropCondition (st : ServerState) (msg : Msg) : Bool :=
  msg.from_ == "status@broadcast" || isBlank msg.body ||
    (match strOr msg.id with
     | none => true
     | some w => dedupSeen st.processed w || decide ((rawNumberOf msg).length < 5))

/-- The drop condition claimed by the specification for the ingestion
pipeline: empty/whitespace body, the reserved status-broadcast sender, or a
resolved phone shorter than 5 digits. -/
def specDropCondition (msg : Msg) : Bool :=
  isBlank msg.body || msg.from_ == "status@broadcast" ||
    decide ((rawNumberOf msg).length < 5)

/-- The lead-matcher step (`index.cjs` lines 317-323) expressed as a
predicate: an existing lead is found by WhatsApp id, or by phone. -/
def leadMatcherFinds (db : List Lead) (wid : Option String) (raw : String) : Bool :=
  (findLeadByWhatsAppId db wid).isSome ||
    (match findLeadByPhone db raw with
     | .ok (some _) => true
     | _ => false)

/-- Uniqueness of the `phone` business key (`UNIQUE NOT NULL` in the
schema). -/
def phoneUnique (db : List Lead) : Prop :=
  db.Pairwise (fun a b => a.phone ≠ b.phone)

/-- Uniqueness of `whatsapp_id` where present (`UNIQUE` in the schema,
nulls do not conflict). -/
def widUnique (db : List Lead) : Prop :=
  db.Pairwise (fun a b => a.whatsapp_id = none ∨ a.whatsapp_id ≠ b.whatsapp_id)

/-- Erase the `updated_at` field, for comparing lead records up to their
last-touched timestamp. -/
def stripUpdatedAt (l : Lead) : Lead :=
  { l with updated_at := 0 }

/-! ## Concrete fixtures used by witnesses and counterexamples -/

/-- A lead already classified `lost` by an explicit pipeline action. -/
def leadAli : Lead :=
  { id := "L1"
    phone := "994501112233"
    name := some "Ali"
    last_message := some "salam"
    source_message := some "ilk mesaj"
    source_contact_name := some "Ali"
    whatsapp_id := some "m0"
    status := "lost"
    source := "whatsapp"
    value := 250
    product_name := some "tur"
    created_at := 10
    updated_at := 20 }

/-- The flat-file counterpart of `leadAli`. -/
def fLeadAli : FLead :=
  { id := some "F1"
    phone := some "994501112233"
    name := some "Ali"
    last_message := some "salam"
    source_message := some "ilk mesaj"
    whatsapp_id := some "m0"
    status := some "lost"
    source := some "whatsapp"
    value := some 250
    created_at := some 10
    updated_at := some 20 }

/-- A second stored lead, with a different phone, holding the WhatsApp id
`"mB"`. -/
def leadVeli : Lead :=
  { id := "L2"
    phone := "994709998877"
    name := some "Veli"
    last_message := some "qiymet?"
    source_message := some "qiymet?"
    source_contact_name := some "Veli"
    whatsapp_id := some "mB"
    status := "new"
    source := "whatsapp"
    value := 0
    product_name := none
    created_at := 12
    updated_at := 22 }

/-- An inbound message with a valid phone, non-empty body and external id,
whose contact resolution yields no real name. -/
def msgSalam : Msg :=
  { from_ := "994501112233@c.us"
    to_ := ""
    fromMe := false
    body := "Salam"
    id := some "m1"
    contact := none }

/-- A later inbound message from the same phone with a fresh external id
and no resolvable contact name. -/
def msgSifaris : Msg :=
  { from_ := "994501112233@c.us"
    to_ := ""
    fromMe := false
    body := "Sifaris edirem"
    id := some "m2"
    contact := none }

/-- A well-formed inbound message that lacks an external id. -/
def msgNoId : Msg :=
  { from_ := "994501112233@c.us"
    to_ := ""
    fromMe := false
    body := "salam"
    id := none
    contact := none }

/-! ## Small shared lemmas -/

theorem strOr_eq_some {x : Option String} {w : String} (h : strOr x = some w) :
    w ≠ "" := by
  match x with
  | none => simp [strOr] at h
  | some s =>
    by_cases hs : s = "" <;> simp [strOr, hs] at h
    subst h; exact hs

theorem strOr_some_of_ne {s : String} (h : s ≠ "") : strOr (some s) = some s := by
  simp [strOr, h]

theorem orD_some_of_ne {s : String} (d : String) (h : s ≠ "") :
    orD (some s) d = s := by
  simp [orD, strOr, h]

theorem validateStatus_of_not_mem {s : String} (h : s ∉ validStatuses) :
    validateStatus s = .error ("Invalid status: " ++ s ++ ". Must be one of: " ++
      String.intercalate ", " validStatuses) := by
  simp [validateStatus, h]

theorem validateStatus_of_mem {s : String} (h : s ∈ validStatuses) :
    validateStatus s = .ok s := by
  simp [validateStatus, h]

@[simp] theorem coalesce_none {α : Type} (b : Option α) : coalesce none b = b := rfl

@[simp] theorem coalesce_some {α : Type} (a : α) (b : Option α) :
    coalesce (some a) b = some a := rfl

@[simp] theorem strOr_none : strOr none = none := rfl

theorem lookup_isSome_of_mem {k : String} {v : Nat} {m : List (String × Nat)}
    (h : (k, v) ∈ m) : (m.lookup k).isSome = true := by
  induction m with
  | nil => cases h
  | cons e es ih =>
    by_cases he : (k == e.1) = true
    · simp [List.lookup, he]
    · have h2 : (k, v) ∈ es := by
        cases h with
        | head => simp at he
        | tail _ h3 => exact h3
      simp [List.lookup, he, ih h2]

/-- Updating via `updateFirst` relates the old and new list pointwise whenever the
relation is reflexive and compatible with the update. -/
theorem forall₂_updateFirst {α : Type} (R : α → α → Prop) (p : α → Bool)
    (f : α → α) (l : List α) (hrefl : ∀ x, R x x) (hf : ∀ x, R x (f x)) :
    List.Forall₂ R l (updateFirst p f l) := by
  induction l with
  | nil => exact List.Forall₂.nil
  | cons x xs ih =>
    by_cases hx : p x = true
    · simpa [updateFirst, hx] using
        List.Forall₂.cons (hf x) (List.forall₂_same.mpr fun y _ => hrefl y)
    · simpa [updateFirst, hx] using List.Forall₂.cons (hrefl x) ih

/-- In a `Pairwise`-unique list, any member holding the same `whatsapp_id`
as another member is that member. -/
theorem widUnique_eq_of_mem {db : List Lead} (hW : widUnique db)
    {a b : Lead} (ha : a ∈ db) (hb : b ∈ db) {w : String}
    (hwa : a.whatsapp_id = some w) (hwb : b.whatsapp_id = some w) : a = b := by
  by_contra hne
  have hsymm : Symmetric (fun x y : Lead =>
      x.whatsapp_id = none ∨ x.whatsapp_id ≠ y.whatsapp_id) := by
    intro x y hxy
    rcases hxy with h | h
    · by_cases hy : y.whatsapp_id = none
      · exact Or.inl hy
      · exact Or.inr (fun hxx => hy (hxx ▸ h))
    · exact Or.inr (fun hxx => h hxx.symm)
  have := hW.forall hsymm ha hb hne
  rcases this with h | h
  · rw [hwa] at h; cases h
  · exact h (hwa.trans hwb.symm)

/-- In a phone-unique list, two members with the same phone are equal. -/
theorem phoneUnique_eq_of_mem {db : List Lead} (hU : phoneUnique db)
    {a b : Lead} (ha : a ∈ db) (hb : b ∈ db)
    (h : a.phone = b.phone) : a = b := by
  by_contra hne
  have hsymm : Symmetric (fun x y : Lead => x.phone ≠ y.phone) := by
    intro x y hxy; exact fun hyx => hxy hyx.symm
  exact hU.forall hsymm ha hb hne h

theorem length_updateFirst {α : Type} (p : α → Bool) (f : α → α) (l : List α) :
    (updateFirst p f l).length = l.length := by
  induction l with
  | nil => rfl
  | cons x xs ih =>
    by_cases hx : p x = true <;> simp [updateFirst, hx, ih]

theorem map_updateFirst {α β : Type} (p : α → Bool) (f : α → α) (proj : α → β)
    (l : List α) (h : ∀ x, p x = true → proj (f x) = proj x) :
    (updateFirst p f l).map proj = l.map proj := by
  induction l with
  | nil => rfl
  | cons x xs ih =>
    by_cases hx : p x = true
    · simp [updateFirst, hx, h x hx]
    · simp [updateFirst, hx, ih]

theorem coalesce_idem {α : Type} (a b : Option α) :
    coalesce a (coalesce a b) = coalesce a b := by
  cases a <;> rfl

theorem lookup_eq_none_of_forall {k : String} {m : List (String × Nat)}
    (h : ∀ v, (k, v) ∉ m) : m.lookup k = none := by
  induction m with
  | nil => rfl
  | cons e es ih =>
    by_cases he : (k == e.1) = true
    · exfalso
      have hk : k = e.1 := by simpa using he
      exact h e.2 (by rw [hk]; exact List.mem_cons_self _ _)
    · simp only [List.lookup, he]
      exact ih fun v hv => h v (List.mem_cons_of_mem _ hv)

/-- Search `find?` commutes with a map that does not change the predicate. -/
theorem find?_map_comm {α : Type} (g : α → α) (p : α → Bool) (l : List α)
    (h : ∀ x, p (g x) = p x) : (l.map g).find? p = (l.find? p).map g := by
  induction l with
  | nil => rfl
  | cons x xs ih =>
    by_cases hx : p x = true
    · simp [List.find?_cons, h, hx]
    · simp [List.find?_cons, h, hx, ih]

/-- After updating exactly the rows matching `pc`, a search by a predicate
`q` that the update establishes — and that only `pc`-rows could satisfy
before — finds the image of the first `pc`-row. -/
theorem find?_map_ite_update {α : Type} (pc q : α → Bool) (upd : α → α)
    (l : List α)
    (hq : ∀ x, pc x = true → q (upd x) = true)
    (himp : ∀ x ∈ l, q x = true → pc x = true) :
    (l.map (fun x => if pc x then upd x else x)).find? q
      = (l.find? pc).map (fun x => if pc x then upd x else x) := by
  induction l with
  | nil => rfl
  | cons x xs ih =>
    by_cases hx : pc x = true
    · simp [List.find?_cons, hx, hq x hx]
    · have hx' : pc x = false := by simpa using hx
      have hqx : q x = false := by
        by_cases h : q x = true
        · exact absurd (himp x (List.mem_cons_self _ _) h) hx
        · simpa using h
      have hgx : (if pc x = true then upd x else x) = x := by simp [hx']
      rw [List.map_cons, hgx, List.find?_cons, List.find?_cons, hqx, hx']
      exact ih fun y hy => himp y (List.mem_cons_of_mem _ hy)

/-- A phone accepted by `validatePhone` has at least 8 characters (it has
at least 8 digits), in particular at least 5. -/
theorem validatePhone_ok_not_short {s c : String}
    (h : validatePhone s = .ok c) : ¬ s.length < 5 := by
  unfold validatePhone at h
  by_cases hs : s = ""
  · rw [if_pos hs] at h; cases h
  · rw [if_neg hs] at h
    by_cases hlt : (String.mk (s.toList.filter Char.isDigit)).length < 8 ∨
        15 < (String.mk (s.toList.filter Char.isDigit)).length
    · rw [if_pos hlt] at h; cases h
    · push_neg at hlt
      have h8 : 8 ≤ (s.toList.filter Char.isDigit).length := hlt.1
      have hle : (s.toList.filter Char.isDigit).length ≤ s.toList.length :=
        List.length_filter_le _ _
      have : s.toList.length = s.length := rfl
      omega

/-- An entry of the de-duplication cache survives any number of cleanup
sweeps that run no later than the end of its retention window. -/
theorem mem_foldl_sweep (t1 t2 : Nat) (wid : String) (sweeps : List Nat)
    (m : List (String × Nat)) (hmem : (wid, t1) ∈ m)
    (hwin : t2 ≤ t1 + PROCESSED_MESSAGES_TTL)
    (hs : ∀ s ∈ sweeps, s ≤ t2) :
    (wid, t1) ∈ sweeps.foldl (fun acc s => sweepProcessed s acc) m := by
  induction sweeps generalizing m with
  | nil => exact hmem
  | cons s ss ih =>
    refine ih (sweepProcessed s m) ?_ (fun x hx => hs x (List.mem_cons_of_mem _ hx))
    have hsle : s ≤ t2 := hs s (List.mem_cons_self _ _)
    simp only [sweepProcessed, List.mem_filter, hmem, true_and]
    simp only [Bool.not_eq_true', decide_eq_false_iff_not, not_lt]
    show s - t1 ≤ PROCESSED_MESSAGES_TTL
    omega

/-- A message whose id is already in the de-duplication cache is dropped
with the whole server state untouched. -/
theorem processMessage_drop_seen (now : Nat) (genId : String) (hasDbUrl : Bool)
    (st : ServerState) (msg : Msg) (wid : String)
    (hbc : (msg.from_ == "status@broadcast") = false)
    (hblank : isBlank msg.body = false)
    (hid : strOr msg.id = some wid)
    (hseen : dedupSeen st.processed wid = true) :
    processMessage now genId hasDbUrl st msg = st := by
  simp [processMessage, hbc, hblank, hid, hseen]

/-- Reduction of `processMessage` when the message passes every gate:
the id is recorded, the fast (and possibly enriched) payloads are
emitted, and the persistence branch runs against the store. -/
theorem processMessage_run (now : Nat) (genId : String) (hasDbUrl : Bool)
    (st : ServerState) (msg : Msg) (wid : String)
    (hid : strOr msg.id = some wid)
    (hbc : (msg.from_ == "status@broadcast") = false)
    (hblank : isBlank msg.body = false)
    (hseen : dedupSeen st.processed wid = false)
    (hlen : ¬ (rawNumberOf msg).length < 5) :
    processMessage now genId hasDbUrl st msg =
      { processed := (wid, now) :: st.processed
        db := if hasDbUrl then
                ingestApply now genId st.db (rawNumberOf msg) msg.body wid
                  (resolveContactName ("+" ++ rawNumberOf msg) msg.contact)
              else st.db
        emits := st.emits ++
          (if (resolveContactName ("+" ++ rawNumberOf msg) msg.contact
                 == "~" ++ rawNumberOf msg) = true
           then [⟨rawNumberOf msg, "~" ++ rawNumberOf msg, msg.body, wid,
                  msg.fromMe, true⟩]
           else [⟨rawNumberOf msg, "~" ++ rawNumberOf msg, msg.body, wid,
                  msg.fromMe, true⟩,
                 ⟨rawNumberOf msg, resolveContactName ("+" ++ rawNumberOf msg) msg.contact,
                  msg.body, wid, msg.fromMe, false⟩]) } := by
  simp only [processMessage, hbc, hblank, hid, hseen, Bool.false_eq_true, if_false,
    if_neg hlen]
  by_cases hcn : (resolveContactName ("+" ++ rawNumberOf msg) msg.contact
      == "~" ++ rawNumberOf msg) = true <;>
    by_cases hdbu : hasDbUrl = true <;>
      simp [hcn, hdbu]

theorem coalesce_self {α : Type} (a : Option α) : coalesce a a = a := by
  cases a <;> rfl

/-- Erasing `updated_at` absorbs a repeated message update with the same
arguments. -/
theorem stripUpdatedAt_messageUpdate_idem (t1 t2 : Nat) (m w n : Option String)
    (x : Lead) :
    stripUpdatedAt (messageUpdate t2 m w n (messageUpdate t1 m w n x))
      = stripUpdatedAt (messageUpdate t1 m w n x) := by
  simp [stripUpdatedAt, messageUpdate, coalesce_idem]

/-- Closed form of the ingestion persistence step for a validated phone and
a non-empty id: an existing lead (matched by id or phone) leads to the
message update of every row with the cleaned phone — rolled back when the
id would collide with a row of another phone — and a missing lead leads to
the insertion of a fresh `status = new` row. -/
theorem ingestApply_eq (now : Nat) (gid : String) (db : List Lead)
    (raw body wid cname c : String)
    (hvp : validatePhone raw = .ok c) (hwne : wid ≠ "") :
    ingestApply now gid db raw body wid cname =
      if (db.find? fun l => l.whatsapp_id == some wid).isSome ||
         (db.find? fun l => l.phone == c).isSome then
        (if widClash db c (some wid) then db
         else db.map (fun l => if l.phone == c
            then messageUpdate now (strOr (some body)) (some wid) (strOr (some cname)) l
            else l))
      else
        (if widClashAll db (some wid) then db
         else db ++ [⟨gid, c, strOr (some cname), strOr (some body), none, none,
           some wid, "new", "whatsapp", 0, none, now, now⟩]) := by
  unfold ingestApply ingestPersist findLeadByWhatsAppId
  rw [strOr_some_of_ne hwne]
  cases hA : db.find? (fun l => l.whatsapp_id == some wid) with
  | some L =>
    cases hB : db.find? (fun l => l.phone == c) with
    | none =>
      have hnopc : ∀ x ∈ db, ¬ (x.phone == c) = true := List.find?_eq_none.mp hB
      have hmapid : db.map (fun l => if l.phone == c
          then messageUpdate now (strOr (some body)) (some wid) (strOr (some cname)) l
          else l) = db := by
        have h1 : db.map (fun l => if l.phone == c
            then messageUpdate now (strOr (some body)) (some wid) (strOr (some cname)) l
            else l) = db.map id := List.map_congr_left fun x hx => by
          have hfx : (x.phone == c) = false := by simpa using hnopc x hx
          simp [hfx]
        rw [h1, List.map_id]
      simp only [hA, updateLeadMessage, hvp, hB, Except.map, Option.isSome_some,
        Bool.true_or, if_true, hmapid]
      split <;> rfl
    | some M =>
      simp only [hA, updateLeadMessage, hvp, hB, strOr_some_of_ne hwne, coalesce_some,
        Except.map, Option.isSome_some, Bool.true_or, Bool.or_true, if_true]
      by_cases hcl : widClash db c (some wid) = true
      · simp [hcl]
      · have hcl' : widClash db c (some wid) = false := by simpa using hcl
        simp [hcl']
  | none =>
    simp only [hA, findLeadByPhone, hvp]
    cases hB : db.find? (fun l => l.phone == c) with
    | some M =>
      simp only [updateLeadMessage, hvp, hB, strOr_some_of_ne hwne, coalesce_some,
        Except.map, Option.isSome_none, Option.isSome_some, Bool.false_or, if_true]
      by_cases hcl : widClash db c (some wid) = true
      · simp [hcl]
      · have hcl' : widClash db c (some wid) = false := by simpa using hcl
        simp [hcl']
    | none =>
      have hred : orD (some "new") "new" = "new" := rfl
      have hnew : validateStatus "new" = .ok "new" :=
        validateStatus_of_mem (show "new" ∈ validStatuses by decide)
      simp only [createLead, hvp, hred, hnew,
        validateValue, hB, Except.map, Option.isSome_none, Bool.false_or,
        Bool.or_self, if_false, strOr_some_of_ne hwne]
      by_cases hcl : widClashAll db (some wid) = true
      · simp [hcl]
      · have hcl' : widClashAll db (some wid) = false := by simpa using hcl
        simp [hcl']

/-- Re-running the ingestion persistence step with the same event against
the store it just produced changes nothing besides `updated_at`. -/
theorem ingestApply_idem (t1 t2 : Nat) (g1 g2 : String) (db : List Lead)
    (raw body wid cname c : String)
    (hvp : validatePhone raw = .ok c) (hwne : wid ≠ "") :
    (ingestApply t2 g2 (ingestApply t1 g1 db raw body wid cname) raw body wid cname).map
        stripUpdatedAt
      = (ingestApply t1 g1 db raw body wid cname).map stripUpdatedAt := by
  rw [ingestApply_eq t1 g1 db raw body wid cname c hvp hwne]
  by_cases hAB : ((db.find? fun l => l.whatsapp_id == some wid).isSome ||
      (db.find? fun l => l.phone == c).isSome) = true
  · rw [if_pos hAB]
    by_cases hK : widClash db c (some wid) = true
    · rw [if_pos hK, ingestApply_eq t2 g2 db raw body wid cname c hvp hwne,
        if_pos hAB, if_pos hK]
    · have hK' : widClash db c (some wid) = false := by simpa using hK
      rw [if_neg hK]
      cases hB : db.find? (fun l => l.phone == c) with
      | none =>
        have hnopc := List.find?_eq_none.mp hB
        have hmapid : ∀ t : Nat, db.map (fun l => if l.phone == c
            then messageUpdate t (strOr (some body)) (some wid) (strOr (some cname)) l
            else l) = db := by
          intro t
          have h1 : db.map (fun l => if l.phone == c
              then messageUpdate t (strOr (some body)) (some wid) (strOr (some cname)) l
              else l) = db.map id := List.map_congr_left fun x hx => by
            have hfx : (x.phone == c) = false := by simpa using hnopc x hx
            simp [hfx]
          rw [h1, List.map_id]
        rw [hmapid t1, ingestApply_eq t2 g2 db raw body wid cname c hvp hwne,
          if_pos hAB, if_neg hK, hmapid t2]
      | some M =>
        have himp : ∀ r ∈ db, (r.whatsapp_id == some wid) = true →
            (r.phone == c) = true := by
          intro r hr hq
          by_contra hpc
          have hpc' : (r.phone == c) = false := by simpa using hpc
          have hwit : widClash db c (some wid) = true := by
            simp only [widClash]
            rw [List.any_eq_true]
            exact ⟨r, hr, by simp [hpc', hq]⟩
          rw [hwit] at hK'
          cases hK'
        have hq_upd : ∀ x : Lead, (x.phone == c) = true →
            ((messageUpdate t1 (strOr (some body)) (some wid) (strOr (some cname)) x).whatsapp_id
              == some wid) = true := fun x _ => by simp [messageUpdate]
        have hfq1 : (db.map (fun l => if l.phone == c
              then messageUpdate t1 (strOr (some body)) (some wid) (strOr (some cname)) l
              else l)).find? (fun l => l.whatsapp_id == some wid)
            = (db.find? (fun l => l.phone == c)).map
                (fun l => if l.phone == c
                  then messageUpdate t1 (strOr (some body)) (some wid) (strOr (some cname)) l
                  else l) :=
          find?_map_ite_update _ _ _ db hq_upd himp
        have hA1 : ((db.map (fun l => if l.phone == c
            then messageUpdate t1 (strOr (some body)) (some wid) (strOr (some cname)) l
            else l)).find? (fun l => l.whatsapp_id == some wid)).isSome = true := by
          rw [hfq1, hB]
          rfl
        have hK1 : widClash (db.map (fun l => if l.phone == c
            then messageUpdate t1 (strOr (some body)) (some wid) (strOr (some cname)) l
            else l)) c (some wid) = false := by
          simp only [widClash]
          rw [List.any_map, List.any_eq_false]
          intro x hx hcontra
          simp only [Function.comp] at hcontra
          by_cases hxc : (x.phone == c) = true
          · rw [if_pos hxc] at hcontra
            simp [messageUpdate, hxc] at hcontra
          · have hxc' : (x.phone == c) = false := by simpa using hxc
            rw [if_neg hxc] at hcontra
            rw [Bool.and_eq_true] at hcontra
            have := himp x hx hcontra.2
            rw [this] at hxc'
            cases hxc'
        rw [ingestApply_eq t2 g2 _ raw body wid cname c hvp hwne,
          if_pos (by rw [hA1]; rfl), if_neg (by rw [hK1]; simp)]
        rw [List.map_map]
        refine List.map_congr_left ?_
        intro y hy
        rcases List.mem_map.mp hy with ⟨x, hx, rfl⟩
        by_cases hxc : (x.phone == c) = true
        · rw [if_pos hxc]
          have hph : ((messageUpdate t1 (strOr (some body)) (some wid)
              (strOr (some cname)) x).phone == c) = true := hxc
          simp only [Function.comp, if_pos hph]
          exact stripUpdatedAt_messageUpdate_idem t1 t2 _ _ _ x
        · rw [if_neg hxc]
          simp only [Function.comp, if_neg hxc]
  · rw [if_neg hAB]
    rw [Bool.or_eq_true] at hAB
    push_neg at hAB
    have hA0 : db.find? (fun l => l.whatsapp_id == some wid) = none :=
      Option.not_isSome_iff_eq_none.mp (by simpa using hAB.1)
    have hB0 : db.find? (fun l => l.phone == c) = none :=
      Option.not_isSome_iff_eq_none.mp (by simpa using hAB.2)
    have hnoq := List.find?_eq_none.mp hA0
    have hnopc := List.find?_eq_none.mp hB0
    have hKall : widClashAll db (some wid) = false := by
      simp only [widClashAll]
      rw [List.any_eq_false]
      exact fun x hx => hnoq x hx
    rw [if_neg (by rw [hKall]; simp)]
    have hfq1 : (db ++ [(⟨g1, c, strOr (some cname), strOr (some body), none, none,
          some wid, "new", "whatsapp", 0, none, t1, t1⟩ : Lead)]).find?
          (fun l => l.whatsapp_id == some wid)
        = some ⟨g1, c, strOr (some cname), strOr (some body), none, none,
            some wid, "new", "whatsapp", 0, none, t1, t1⟩ := by
      rw [List.find?_append, hA0]
      simp [List.find?]
    have hK1 : widClash (db ++ [(⟨g1, c, strOr (some cname), strOr (some body), none, none,
          some wid, "new", "whatsapp", 0, none, t1, t1⟩ : Lead)]) c (some wid) = false := by
      simp only [widClash]
      rw [List.any_append]
      have h1 : db.any (fun r => !(r.phone == c) && r.whatsapp_id == some wid) = false := by
        rw [List.any_eq_false]
        intro x hx hcontra
        rw [Bool.and_eq_true] at hcontra
        exact (hnoq x hx) hcontra.2
      rw [h1]
      simp
    rw [ingestApply_eq t2 g2 _ raw body wid cname c hvp hwne,
      if_pos (by rw [hfq1]; rfl), if_neg (by rw [hK1]; simp)]
    rw [List.map_map]
    refine List.map_congr_left ?_
    intro y hy
    rcases List.mem_append.mp hy with hmem | hmem
    · have hyc : (y.phone == c) = false := by simpa using hnopc y hmem
      simp only [Function.comp]
      rw [if_neg (show ¬ ((y.phone == c) = true) by simp [hyc])]
    · simp only [List.mem_singleton] at hmem
      subst hmem
      simp only [Function.comp]
      rw [if_pos (by simp)]
      simp [stripUpdatedAt, messageUpdate, coalesce_self, coalesce_some]

/-- Pairwise distinctness of a projected key transports along equality of
the projected lists. -/
theorem pairwise_ne_of_map_eq {α β : Type} (proj : α → β) {l l' : List α}
    (h : l'.map proj = l.map proj)
    (hU : l.Pairwise fun a b => proj a ≠ proj b) :
    l'.Pairwise fun a b => proj a ≠ proj b := by
  have h1 : List.Pairwise Ne (l.map proj) := List.pairwise_map.mpr hU
  have h2 : List.Pairwise Ne (l'.map proj) := by rw [h]; exact h1
  exact List.pairwise_map.mp h2

/-! ## C4 — merge preservation for body-only updates -/

/-- Claim C4, confirmed: For an update event that supplies only a message
body (no name, no value, no status), the relational `updateLeadMessage`
succeeds and leaves every row's `id`, `phone`, `name`, `source_message`,
`source_contact_name`, `whatsapp_id`, `status`, `source`, `value`,
`product_name` and `created_at` untouched (only `last_message` and
`updated_at` may change; `whatsapp_id` would only change if the event
supplied one), and the flat-file `updateLeadMessage` does the same. -/
theorem c4_body_only_update_frame
    (now : Nat) (db : List Lead) (phone body c : String)
    (hp : validatePhone phone = .ok c) (hW : widUnique db)
    (now2 : Nat) (fdb : FileDb) (fphone fbody : String) :
    (∃ db' r, updateLeadMessage now db phone (some body) none none = .ok (db', r) ∧
       List.Forall₂ (fun l l' : Lead =>
         l'.id = l.id ∧ l'.phone = l.phone ∧ l'.name = l.name ∧
         l'.source_message = l.source_message ∧
         l'.source_contact_name = l.source_contact_name ∧
         l'.whatsapp_id = l.whatsapp_id ∧ l'.status = l.status ∧
         l'.source = l.source ∧ l'.value = l.value ∧
         l'.product_name = l.product_name ∧ l'.created_at = l.created_at) db db') ∧
    List.Forall₂ (fun l l' : FLead =>
      l'.id = l.id ∧ l'.phone = l.phone ∧ l'.name = l.name ∧
      l'.source_message = l.source_message ∧ l'.whatsapp_id = l.whatsapp_id ∧
      l'.status = l.status ∧ l'.source = l.source ∧ l'.value = l.value ∧
      l'.created_at = l.created_at)
      fdb.leads (fUpdateLeadMessage now2 fdb fphone fbody none none).1.leads := by
  constructor
  · cases hfind : db.find? (fun l => l.phone == c) with
    | none =>
      refine ⟨db, none, ?_, List.forall₂_same.mpr fun x _ => by simp⟩
      simp [updateLeadMessage, hp, hfind]
    | some old =>
      have hmem := List.mem_of_find?_eq_some hfind
      have hclash : widClash db c old.whatsapp_id = false := by
        cases how : old.whatsapp_id with
        | none => simp [widClash]
        | some ow =>
          simp only [widClash]
          rw [List.any_eq_false]
          intro r hr
          simp only [Bool.and_eq_true, Bool.not_eq_true', beq_iff_eq, beq_eq_false_iff_ne,
            ne_eq, not_and]
          intro hrph hrw
          have : r = old := widUnique_eq_of_mem hW hr hmem hrw how
          subst this
          exact hrph (by simpa using List.find?_some hfind)
      have hok : updateLeadMessage now db phone (some body) none none =
          .ok (db.map (fun l => if l.phone == c
                 then messageUpdate now (strOr (some body)) none none l else l),
               some (messageUpdate now (strOr (some body)) none none old)) := by
        simp [updateLeadMessage, hp, hfind, hclash]
      refine ⟨_, _, hok, ?_⟩
      rw [List.forall₂_map_right_iff]
      refine List.forall₂_same.mpr fun x _ => ?_
      by_cases hx : (x.phone == c) = true <;> simp [messageUpdate, hx]
  · cases hffind : fdb.leads.find? (fun l => l.phone == some fphone) with
    | none =>
      simp only [fUpdateLeadMessage, hffind]
      exact List.forall₂_same.mpr fun x _ => by simp
    | some old =>
      simp only [fUpdateLeadMessage, hffind]
      exact forall₂_updateFirst _ _ _ _ (fun x => by simp) (fun x => by simp)

/-- Witness for `c4_body_only_update_frame` on a one-lead store. -/
theorem c4_witness :
    (∃ db' r, updateLeadMessage 30 [leadAli] "994501112233" (some "yeni") none none
        = .ok (db', r) ∧
       List.Forall₂ (fun l l' : Lead =>
         l'.id = l.id ∧ l'.phone = l.phone ∧ l'.name = l.name ∧
         l'.source_message = l.source_message ∧
         l'.source_contact_name = l.source_contact_name ∧
         l'.whatsapp_id = l.whatsapp_id ∧ l'.status = l.status ∧
         l'.source = l.source ∧ l'.value = l.value ∧
         l'.product_name = l.product_name ∧ l'.created_at = l.created_at) [leadAli] db') ∧
    List.Forall₂ (fun l l' : FLead =>
      l'.id = l.id ∧ l'.phone = l.phone ∧ l'.name = l.name ∧
      l'.source_message = l.source_message ∧ l'.whatsapp_id = l.whatsapp_id ∧
      l'.status = l.status ∧ l'.source = l.source ∧ l'.value = l.value ∧
      l'.created_at = l.created_at)
      (⟨[fLeadAli]⟩ : FileDb).leads
      (fUpdateLeadMessage 31 ⟨[fLeadAli]⟩ "994501112233" "yeni" none none).1.leads :=
  c4_body_only_update_frame 30 [leadAli] "994501112233" "yeni" "994501112233"
    rfl (by simp [widUnique]) 31 ⟨[fLeadAli]⟩ "994501112233" "yeni"

/-! ## C3 — at most one lead per phone, create degrades to update -/

/-- Claim C3, counterexample: the claim's unconditional "the operation
does not fail" is false for the relational store. A create for the phone
of `leadAli` — a genuine unique-phone conflict — that also supplies the
WhatsApp id `"mB"` held by `leadVeli` (a lead with another phone) makes
the conflict arm set `whatsapp_id = COALESCE(EXCLUDED.whatsapp_id, ...)`
to a value violating `UNIQUE (whatsapp_id)`: the upsert throws and rolls
back instead of updating. -/
theorem c3_counterexample :
    (([leadAli, leadVeli] : List Lead).any fun l => l.phone == "994501112233") = true ∧
    createLead 50 "g7" [leadAli, leadVeli]
        { phone := "994501112233", last_message := some "salam yeniden",
          whatsapp_id := some "mB", status := some "new" }
      = .error "duplicate key value violates unique constraint" := by
  decide

/-- Claim C3, amended: Under the store invariants, and provided the
supplied `whatsapp_id` (if any) is not held by a lead with a different
phone, `createLead` with validated inputs succeeds: when a row with the
same (cleaned) phone already exists, the conflict arm updates that row in
place — the list of phones is untouched, no row is added, phone-uniqueness
is preserved — and when no such row exists exactly one row is appended,
still preserving phone-uniqueness. Without that proviso a conflicting
create fails with a `UNIQUE (whatsapp_id)` violation and rolls back. The
flat-file `createLead` (a total function, so it cannot fail) updates in
place or appends the same way, keyed on the raw phone value. -/
theorem c3_phone_unique_upsert
    (now : Nat) (gid : String) (db : List Lead) (data : CreateData)
    (c st' : String) (v : Int)
    (hU : phoneUnique db) (hW : widUnique db)
    (hp : validatePhone data.phone = .ok c)
    (hs : validateStatus (orD data.status "new") = .ok st')
    (hv : validateValue data.value = .ok v)
    (hwid : ∀ w, strOr data.whatsapp_id = some w →
      ∀ r ∈ db, r.whatsapp_id = some w → r.phone = c)
    (now2 : Nat) (gid2 : String) (fdb : FileDb) (fdata : FCreateData)
    (hfU : fdb.leads.Pairwise fun a b => a.phone ≠ b.phone) :
    (∃ db' lead, createLead now gid db data = .ok (db', lead) ∧
       phoneUnique db' ∧
       ((db.any fun l => l.phone == c) = true →
         db'.length = db.length ∧
         db'.map (fun l => l.phone) = db.map (fun l => l.phone)) ∧
       ((db.any fun l => l.phone == c) = false → db'.length = db.length + 1)) ∧
    ((fCreateLead now2 gid2 fdb fdata).1.leads.Pairwise
        (fun a b => a.phone ≠ b.phone) ∧
     ((fdb.leads.any fun l => l.phone == fdata.phone) = true →
        (fCreateLead now2 gid2 fdb fdata).1.leads.length = fdb.leads.length) ∧
     ((fdb.leads.any fun l => l.phone == fdata.phone) = false →
        (fCreateLead now2 gid2 fdb fdata).1.leads.length = fdb.leads.length + 1)) := by
  constructor
  · cases hfind : db.find? (fun l => l.phone == c) with
    | some old =>
      have hmem := List.mem_of_find?_eq_some hfind
      have holdph : old.phone = c := by simpa using List.find?_some hfind
      have hclash : widClash db c (conflictMerge now data v old).whatsapp_id = false := by
        show widClash db c (coalesce (strOr data.whatsapp_id) old.whatsapp_id) = false
        cases hsw : strOr data.whatsapp_id with
        | some w =>
          simp only [coalesce_some, widClash]
          rw [List.any_eq_false]
          intro r hr
          simp only [Bool.and_eq_true, Bool.not_eq_true', beq_iff_eq, beq_eq_false_iff_ne,
            ne_eq, not_and]
          exact fun hrph hrw => hrph (hwid w hsw r hr hrw)
        | none =>
          simp only [coalesce_none]
          cases how : old.whatsapp_id with
          | none => simp [widClash]
          | some ow =>
            simp only [widClash]
            rw [List.any_eq_false]
            intro r hr
            simp only [Bool.and_eq_true, Bool.not_eq_true', beq_iff_eq, beq_eq_false_iff_ne,
              ne_eq, not_and]
            intro hrph hrw
            have : r = old := widUnique_eq_of_mem hW hr hmem hrw how
            subst this
            exact hrph holdph
      have hmapph : (db.map fun l => if l.phone == c then conflictMerge now data v l else l).map
          (fun l => l.phone) = db.map (fun l => l.phone) := by
        rw [List.map_map]
        exact List.map_congr_left fun x _ => by
          simp only [Function.comp]
          split <;> rfl
      have hok : createLead now gid db data =
          .ok (db.map (fun l => if l.phone == c then conflictMerge now data v l else l),
               conflictMerge now data v old) := by
        simp [createLead, hp, hs, hv, hfind, hclash]
      refine ⟨_, _, hok, ?_, ?_, ?_⟩
      · exact pairwise_ne_of_map_eq (fun l : Lead => l.phone) hmapph hU
      · exact fun _ => ⟨by simp, hmapph⟩
      · intro hany
        exfalso
        have := List.any_eq_false.mp hany old hmem
        simp [holdph] at this
    | none =>
      have hnone : ∀ x ∈ db, ¬ (x.phone == c) = true := List.find?_eq_none.mp hfind
      have hclash : widClashAll db (strOr data.whatsapp_id) = false := by
        cases hsw : strOr data.whatsapp_id with
        | some w =>
          simp only [widClashAll]
          rw [List.any_eq_false]
          intro r hr
          simp only [beq_iff_eq]
          intro hrw
          exact (hnone r hr) (by simp [hwid w hsw r hr hrw])
        | none => simp [widClashAll]
      have hok : createLead now gid db data =
          .ok (db ++ [⟨gid, c, strOr data.name, strOr data.last_message,
                 strOr data.source_message, strOr data.source_contact_name,
                 strOr data.whatsapp_id, st', (data.source).getD "whatsapp",
                 v, strOr data.product_name, now, now⟩],
               ⟨gid, c, strOr data.name, strOr data.last_message,
                 strOr data.source_message, strOr data.source_contact_name,
                 strOr data.whatsapp_id, st', (data.source).getD "whatsapp",
                 v, strOr data.product_name, now, now⟩) := by
        simp [createLead, hp, hs, hv, hfind, hclash]
      refine ⟨_, _, hok, ?_, ?_, fun _ => by simp⟩
      · rw [phoneUnique, List.pairwise_append]
        refine ⟨hU, List.pairwise_singleton _ _, fun a ha b hb => ?_⟩
        simp only [List.mem_singleton] at hb
        subst hb
        exact fun hac => (hnone a ha) (by simp [hac])
      · intro hany
        exfalso
        obtain ⟨x, hx, hpx⟩ := List.any_eq_true.mp hany
        exact (hnone x hx) hpx
  · cases hffind : fdb.leads.find? (fun l => l.phone == fdata.phone) with
    | some old =>
      have hmemf := List.mem_of_find?_eq_some hffind
      have hmapf : (updateFirst (fun l => l.phone == fdata.phone)
          (fun l => { fSpread l fdata with updated_at := some now2 }) fdb.leads).map
            (fun l => l.phone) = fdb.leads.map (fun l => l.phone) := by
        refine map_updateFirst _ _ _ _ fun x hx => ?_
        have hxp : x.phone = fdata.phone := by simpa using hx
        show coalesce fdata.phone x.phone = x.phone
        cases hd : fdata.phone with
        | none => simp
        | some p => simp [hxp, hd]
      refine ⟨?_, fun _ => ?_, ?_⟩
      · simp only [fCreateLead, hffind]
        exact pairwise_ne_of_map_eq (fun l : FLead => l.phone) hmapf hfU
      · simp only [fCreateLead, hffind]
        exact length_updateFirst _ _ _
      · intro hany
        exfalso
        have := List.any_eq_false.mp hany old hmemf
        have := List.find?_some hffind
        simp_all
    | none =>
      have hnonef : ∀ x ∈ fdb.leads, ¬ (x.phone == fdata.phone) = true :=
        List.find?_eq_none.mp hffind
      refine ⟨?_, ?_, fun _ => ?_⟩
      · simp only [fCreateLead, hffind]
        rw [List.pairwise_append]
        refine ⟨hfU, List.pairwise_singleton _ _, fun a ha b hb => ?_⟩
        simp only [List.mem_singleton] at hb
        subst hb
        show a.phone ≠ fdata.phone
        exact fun hac => (hnonef a ha) (by simp [hac])
      · intro hany
        exfalso
        obtain ⟨x, hx, hpx⟩ := List.any_eq_true.mp hany
        exact (hnonef x hx) hpx
      · simp [fCreateLead, hffind]

/-- Witness for `c3_phone_unique_upsert`: a create for the phone of the
already-stored lead becomes an in-place update, and the flat-file side
appends on a store without that phone. -/
theorem c3_witness :
    (∃ db' lead, createLead 40 "g3" [leadAli]
        { phone := "+994 50 111 22 33", last_message := some "yeni mesaj",
          whatsapp_id := some "m0", status := some "new" } = .ok (db', lead) ∧
       phoneUnique db' ∧
       (([leadAli].any fun l => l.phone == "994501112233") = true →
         db'.length = [leadAli].length ∧
         db'.map (fun l => l.phone) = [leadAli].map (fun l => l.phone)) ∧
       (([leadAli].any fun l => l.phone == "994501112233") = false →
         db'.length = [leadAli].length + 1)) ∧
    ((fCreateLead 41 "g4" ⟨[fLeadAli]⟩
        { phone := some "994709998877", status := some "new" }).1.leads.Pairwise
        (fun a b => a.phone ≠ b.phone) ∧
     (((⟨[fLeadAli]⟩ : FileDb).leads.any fun l => l.phone == some "994709998877") = true →
        (fCreateLead 41 "g4" ⟨[fLeadAli]⟩
          { phone := some "994709998877", status := some "new" }).1.leads.length
          = (⟨[fLeadAli]⟩ : FileDb).leads.length) ∧
     (((⟨[fLeadAli]⟩ : FileDb).leads.any fun l => l.phone == some "994709998877") = false →
        (fCreateLead 41 "g4" ⟨[fLeadAli]⟩
          { phone := some "994709998877", status := some "new" }).1.leads.length
          = (⟨[fLeadAli]⟩ : FileDb).leads.length + 1)) :=
  c3_phone_unique_upsert 40 "g3" [leadAli]
    { phone := "+994 50 111 22 33", last_message := some "yeni mesaj",
      whatsapp_id := some "m0", status := some "new" }
    "994501112233" "new" 0
    (by simp [phoneUnique]) (by simp [widUnique]) rfl rfl rfl
    (by intro w hw r hr hrw
        simp only [List.mem_singleton] at hr
        subst hr
        rfl)
    41 "g4" ⟨[fLeadAli]⟩ { phone := some "994709998877", status := some "new" }
    (by simp)

/-! ## C8 — `getLeads` filters -/

/-- Claim C8, code bug: The claim says every filter combination succeeds, in
particular `offset` without `limit`. The builder increments `paramCount`
after LIMIT only implicitly (it never increments it) while OFFSET
pre-increments, so an offset supplied without a limit produces the
placeholder `$2` with only one bound value: the driver rejects the query.
With both limit and offset the indices line up, confirming the slip is
specific to offset-without-limit. -/
theorem c8_offset_without_limit_fails :
    getLeadsQuery { offset := some 10 } =
      .ok { placeholders := [2], valueCount := 1, paramCount := 2 } ∧
    queryUnderBound { placeholders := [2], valueCount := 1, paramCount := 2 } = true ∧
    getLeadsQuery { limit := some 20, offset := some 10 } =
      .ok { placeholders := [1, 2], valueCount := 2, paramCount := 2 } ∧
    queryUnderBound { placeholders := [1, 2], valueCount := 2, paramCount := 2 } = false ∧
    getLeadsQuery { status := some "new", offset := some 10 } =
      .ok { placeholders := [1, 3], valueCount := 2, paramCount := 3 } ∧
    queryUnderBound { placeholders := [1, 3], valueCount := 2, paramCount := 3 } = true := by
  decide

/-! ## C9 — status validation -/

/-- Claim C9, counterexample: The claim says only the four spec statuses
{new, potential, won, lost} are accepted; the code also accepts
`"contacted"` and mutates the store with it. -/
theorem c9_counterexample :
    validateStatus "contacted" = .ok "contacted" ∧
    "contacted" ∉ (["new", "potential", "won", "lost"] : List String) ∧
    updateLeadStatus 30 [leadAli] "L1" "contacted" =
      .ok ([{ leadAli with status := "contacted", updated_at := 30 }],
           some { leadAli with status := "contacted", updated_at := 30 }) := by
  decide

/-- Claim C9, amended: The status-mutating operations accept a status
exactly when it is one of the five statuses
{new, potential, won, lost, contacted}; any other non-empty status string
is rejected with a validation error by `validateStatus`,
`updateLeadStatus` and `createLead`, leaving the store unchanged (the
transaction rolls back). (`createLead` substitutes `'new'` for an absent
or empty status before validating.) -/
theorem c9_status_validation (s : String) (now : Nat) (db : List Lead)
    (id gid : String) (data : CreateData)
    (hs : data.status = some s) (hne : s ≠ "") (hinv : s ∉ validStatuses) :
    (∃ e, validateStatus s = .error e) ∧
    (∃ e, updateLeadStatus now db id s = .error e) ∧
    (∃ e, createLead now gid db data = .error e) ∧
    (∀ s', s' ∈ validStatuses → validateStatus s' = .ok s') := by
  have h1 : updateLeadStatus now db id s =
      .error ("Invalid status: " ++ s ++ ". Must be one of: " ++
        String.intercalate ", " validStatuses) := by
    simp [updateLeadStatus, validateStatus_of_not_mem hinv]
  have h2 : ∃ e, createLead now gid db data = .error e := by
    cases hph : validatePhone data.phone with
    | error e => exact ⟨e, by simp [createLead, hph]⟩
    | ok c =>
      have hcl : createLead now gid db data =
          .error ("Invalid status: " ++ s ++ ". Must be one of: " ++
            String.intercalate ", " validStatuses) := by
        simp [createLead, hph, hs, orD_some_of_ne _ hne, validateStatus_of_not_mem hinv]
      exact ⟨_, hcl⟩
  exact ⟨⟨_, validateStatus_of_not_mem hinv⟩, ⟨_, h1⟩, h2,
    fun s' h => validateStatus_of_mem h⟩

/-- Witness for `c9_status_validation` at the concrete status `"vip"`. -/
theorem c9_witness :
    (∃ e, validateStatus "vip" = .error e) ∧
    (∃ e, updateLeadStatus 30 [leadAli] "L1" "vip" = .error e) ∧
    (∃ e, createLead 30 "g1" [leadAli]
      { phone := "994501112233", status := some "vip" } = .error e) ∧
    (∀ s', s' ∈ validStatuses → validateStatus s' = .ok s') :=
  c9_status_validation "vip" 30 [leadAli] "L1" "g1"
    { phone := "994501112233", status := some "vip" } rfl (by decide) (by decide)

/-! ## C10 — flat-file read robustness -/

/-- Claim C10, confirmed: When the backing file is missing, or holds text
that `JSON.parse` rejects, every read-side operation of the flat-file
store returns the empty-store result, and none of them throws (they are
total functions of the file state). -/
theorem c10_read_robustness (parse : String → Option FileDb) (s : String)
    (status : Option String) (phone wid : String)
    (hbad : parse s = none) :
    (fGetLeadsFS parse (.content s) status = [] ∧
     fFindLeadByPhoneFS parse (.content s) phone = none ∧
     fFindLeadByWhatsAppIdFS parse (.content s) wid = none ∧
     fGetLeadStatsFS parse (.content s) = ⟨0, 0, 0, 0⟩) ∧
    (fGetLeadsFS parse .missing status = [] ∧
     fFindLeadByPhoneFS parse .missing phone = none ∧
     fFindLeadByWhatsAppIdFS parse .missing wid = none ∧
     fGetLeadStatsFS parse .missing = ⟨0, 0, 0, 0⟩) := by
  have hread : readDb parse (.content s) = ⟨[]⟩ := by simp [readDb, hbad]
  have hread2 : readDb parse .missing = ⟨[]⟩ := rfl
  constructor <;>
    refine ⟨?_, ?_, ?_, ?_⟩ <;>
      simp [fGetLeadsFS, fFindLeadByPhoneFS, fFindLeadByWhatsAppIdFS, fGetLeadStatsFS,
        hread, hread2, fGetLeads, fFindLeadByPhone, fFindLeadByWhatsAppId, fGetLeadStats] <;>
      cases strOr status <;> simp

/-- Witness for `c10_read_robustness` with an always-failing parse on the
text `"not json"`. -/
theorem c10_witness :
    (fGetLeadsFS (fun _ => none) (.content "not json") (some "new") = [] ∧
     fFindLeadByPhoneFS (fun _ => none) (.content "not json") "994501112233" = none ∧
     fFindLeadByWhatsAppIdFS (fun _ => none) (.content "not json") "m1" = none ∧
     fGetLeadStatsFS (fun _ => none) (.content "not json") = ⟨0, 0, 0, 0⟩) ∧
    (fGetLeadsFS (fun _ => none) .missing (some "new") = [] ∧
     fFindLeadByPhoneFS (fun _ => none) .missing "994501112233" = none ∧
     fFindLeadByWhatsAppIdFS (fun _ => none) .missing "m1" = none ∧
     fGetLeadStatsFS (fun _ => none) .missing = ⟨0, 0, 0, 0⟩) :=
  c10_read_robustness (fun _ => none) "not json" (some "new") "994501112233" "m1" rfl

/-! ## C6 — the de-duplication window -/

/-- Claim C6, confirmed: (1) A second delivery of the same external id
within the 30-second retention window — no matter which cleanup sweeps ran
in between, since sweeps up to that moment cannot evict an entry still
inside its window — is dropped with the whole state unchanged: no store
mutation, no emission, so no lead's `updated_at` moves. (2) A sweep purges
an entry exactly when it is older than the retention window. (3) Once no
entry for the id remains, the gate reports it unseen, so a redelivery
after expiry is treated as new. -/
theorem c6_dedup_window (t1 t2 : Nat) (genId : String) (hasDbUrl : Bool)
    (wid : String) (sweeps : List Nat) (st : ServerState) (msg : Msg)
    (hid : strOr msg.id = some wid)
    (hbc : (msg.from_ == "status@broadcast") = false)
    (hblank : isBlank msg.body = false)
    (hmem : (wid, t1) ∈ st.processed)
    (hwin : t2 ≤ t1 + PROCESSED_MESSAGES_TTL)
    (hsw : ∀ s ∈ sweeps, s ≤ t2) :
    (processMessage t2 genId hasDbUrl
        { st with processed := sweeps.foldl (fun acc s => sweepProcessed s acc) st.processed }
        msg
      = { st with processed := sweeps.foldl (fun acc s => sweepProcessed s acc) st.processed }) ∧
    (∀ (now : Nat) (m : List (String × Nat)) (e : String × Nat),
        e ∈ sweepProcessed now m ↔ e ∈ m ∧ now - e.2 ≤ PROCESSED_MESSAGES_TTL) ∧
    (∀ m : List (String × Nat), (∀ ts, (wid, ts) ∉ m) → dedupSeen m wid = false) := by
  refine ⟨?_, ?_, ?_⟩
  · have hmem' : (wid, t1) ∈ sweeps.foldl (fun acc s => sweepProcessed s acc) st.processed :=
      mem_foldl_sweep t1 t2 wid sweeps st.processed hmem hwin hsw
    exact processMessage_drop_seen t2 genId hasDbUrl _ msg wid hbc hblank hid
      (lookup_isSome_of_mem hmem')
  · intro now m e
    simp only [sweepProcessed, List.mem_filter, Bool.not_eq_true',
      decide_eq_false_iff_not, not_lt]
  · intro m hnone
    simp only [dedupSeen, lookup_eq_none_of_forall hnone, Option.isSome_none]

/-- Witness for `c6_dedup_window`: the id `"m1"` first seen at `t=100` is
redelivered at `t=30100` (the very edge of the window) after sweeps at
`t=20000` and `t=30100`, and is dropped. -/
theorem c6_witness :
    (processMessage 30100 "g9" true
        { processed :=
            [20000, 30100].foldl (fun acc s => sweepProcessed s acc) [("m1", 100)]
          db := [leadAli]
          emits := [] } msgSalam
      = { processed :=
            [20000, 30100].foldl (fun acc s => sweepProcessed s acc) [("m1", 100)]
          db := [leadAli]
          emits := [] }) ∧
    (∀ (now : Nat) (m : List (String × Nat)) (e : String × Nat),
        e ∈ sweepProcessed now m ↔ e ∈ m ∧ now - e.2 ≤ PROCESSED_MESSAGES_TTL) ∧
    (∀ m : List (String × Nat), (∀ ts, ("m1", ts) ∉ m) → dedupSeen m "m1" = false) :=
  c6_dedup_window 100 30100 "g9" true "m1" [20000, 30100]
    ⟨[("m1", 100)], [leadAli], []⟩ msgSalam rfl (by decide) (by decide)
    (by decide) (by decide) (by decide)

/-! ## C2 — status immutability under ingestion -/

/-- When the lead matcher finds an existing lead (by WhatsApp id or by
phone), the persistence step goes through `updateLeadMessage`, which
never touches any row's `id` or `status` — whether it succeeds, matches
no row, or rolls back. -/
theorem ingestApply_status_map (now : Nat) (gid : String) (db : List Lead)
    (raw body wid cname : String) (hwne : wid ≠ "")
    (hm : (db.find? (fun l => l.whatsapp_id == some wid)).isSome = true ∨
          (∃ c, validatePhone raw = .ok c ∧
            (db.find? (fun l => l.phone == c)).isSome = true)) :
    (ingestApply now gid db raw body wid cname).map (fun l => (l.id, l.status))
      = db.map (fun l => (l.id, l.status)) := by
  unfold ingestApply ingestPersist findLeadByWhatsAppId
  rw [strOr_some_of_ne hwne]
  cases hA : db.find? (fun l => l.whatsapp_id == some wid) with
  | some L =>
    cases hvp : validatePhone raw with
    | error e => simp [hA, updateLeadMessage, hvp, Except.map]
    | ok c =>
      cases hB : db.find? (fun l => l.phone == c) with
      | none => simp [hA, updateLeadMessage, hvp, hB, Except.map]
      | some M =>
        by_cases hcl : widClash db c
            (coalesce (strOr (some wid)) M.whatsapp_id) = true
        · simp [hA, updateLeadMessage, hvp, hB, hcl, Except.map]
        · have hcl' : widClash db c (coalesce (strOr (some wid)) M.whatsapp_id) = false := by
            simpa using hcl
          simp only [hA, updateLeadMessage, hvp, hB, hcl', Bool.false_eq_true, if_false,
            Except.map]
          rw [List.map_map]
          exact List.map_congr_left fun x _ => by
            simp only [Function.comp]
            split <;> rfl
  | none =>
    unfold findLeadByPhone
    cases hvp : validatePhone raw with
    | error e => simp [hA, hvp]  -- findLeadByPhone propagates the error
    | ok c =>
      cases hB : db.find? (fun l => l.phone == c) with
      | none =>
        exfalso
        rcases hm with h | ⟨c', hc', hfind⟩
        · rw [hA] at h; cases h
        · rw [hvp] at hc'
          cases hc'
          rw [hB] at hfind
          cases hfind
      | some M =>
        by_cases hcl : widClash db c
            (coalesce (strOr (some wid)) M.whatsapp_id) = true
        · simp [hA, hvp, hB, updateLeadMessage, hcl, Except.map]
        · have hcl' : widClash db c (coalesce (strOr (some wid)) M.whatsapp_id) = false := by
            simpa using hcl
          simp only [hA, hvp, hB, updateLeadMessage, hcl', Bool.false_eq_true, if_false,
            Except.map]
          rw [List.map_map]
          exact List.map_congr_left fun x _ => by
            simp only [Function.comp]
            split <;> rfl

/-- Claim C2, confirmed: For every message event processed against a store
in which the matcher finds an existing lead (by external id or by phone),
every lead's `status` — and its `id` — is the same after `processMessage`
as before, whatever the status was (including `lost`). -/
theorem c2_status_preserved (now : Nat) (genId : String) (hasDbUrl : Bool)
    (st : ServerState) (msg : Msg)
    (hfound : leadMatcherFinds st.db msg.id (rawNumberOf msg) = true) :
    (processMessage now genId hasDbUrl st msg).db.map (fun l => (l.id, l.status))
      = st.db.map (fun l => (l.id, l.status)) := by
  by_cases hbc : (msg.from_ == "status@broadcast") = true
  · simp [processMessage, hbc]
  have hbc' : (msg.from_ == "status@broadcast") = false := by simpa using hbc
  by_cases hblank : isBlank msg.body = true
  · simp [processMessage, hbc', hblank]
  have hblank' : isBlank msg.body = false := by simpa using hblank
  cases hid : strOr msg.id with
  | none => simp [processMessage, hbc', hblank', hid]
  | some wid =>
    by_cases hseen : dedupSeen st.processed wid = true
    · rw [processMessage_drop_seen now genId hasDbUrl st msg wid hbc' hblank' hid hseen]
    have hseen' : dedupSeen st.processed wid = false := by simpa using hseen
    by_cases hlen : (rawNumberOf msg).length < 5
    · simp [processMessage, hbc', hblank', hid, hseen', hlen]
    rw [processMessage_run now genId hasDbUrl st msg wid hid hbc' hblank' hseen' hlen]
    by_cases hdbu : hasDbUrl = true
    · simp only [hdbu, if_true]
      refine ingestApply_status_map now genId st.db (rawNumberOf msg) msg.body wid
        (resolveContactName ("+" ++ rawNumberOf msg) msg.contact)
        (strOr_eq_some hid) ?_
      unfold leadMatcherFinds at hfound
      rw [Bool.or_eq_true] at hfound
      rcases hfound with h | h
      · left
        unfold findLeadByWhatsAppId at h
        rw [hid] at h
        simpa using h
      · right
        cases hvp : validatePhone (rawNumberOf msg) with
        | error e =>
          simp only [findLeadByPhone, hvp] at h
          exact Bool.noConfusion h
        | ok c =>
          cases hf : st.db.find? (fun l => l.phone == c) with
          | none =>
            simp only [findLeadByPhone, hvp, hf] at h
            exact Bool.noConfusion h
          | some M => exact ⟨c, rfl, by simp [hf]⟩
    · simp [hdbu]

/-- Witness for `c2_status_preserved`: an inbound message for the phone of
the stored lead whose status is `lost`; the status stays `lost`. -/
theorem c2_witness :
    (processMessage 50 "g5" true ⟨[], [leadAli], []⟩ msgSifaris).db.map
        (fun l => (l.id, l.status))
      = ([leadAli] : List Lead).map (fun l => (l.id, l.status)) :=
  c2_status_preserved 50 "g5" true ⟨[], [leadAli], []⟩ msgSifaris (by decide)

/-! ## C1, C5, C7 — counterexamples -/

/-- Claim C1, counterexample: Applying the same valid event twice (cache
cleared in between, observed at times 100 and 200) does not yield the same
final Lead record as applying it once: the second application bumps
`updated_at` from 100 to 200. -/
theorem c1_counterexample :
    (processMessage 200 "g2" true
       { processMessage 100 "g1" true ⟨[], [], []⟩ msgSalam with processed := [] }
       msgSalam).db
      ≠ (processMessage 100 "g1" true ⟨[], [], []⟩ msgSalam).db := by
  decide

/-- Claim C5, counterexample: An ingestion event whose contact resolution
supplies no real name (`getContact` unavailable) does not leave
`display_name` unchanged: the pipeline substitutes the placeholder
`'+' + rawNumber` and overwrites the existing name `"Ali"` with it. -/
theorem c5_counterexample :
    msgSifaris.contact = none ∧
    leadAli.name = some "Ali" ∧
    (processMessage 30 "g1" true ⟨[], [leadAli], []⟩ msgSifaris).db.map (fun l => l.name)
      = [some "+994501112233"] := by
  decide

/-- Claim C7, counterexample: A message with a non-empty body, an ordinary
sender and an 12-digit phone — none of the claimed drop conditions — is
nevertheless dropped before any emission or store mutation, because it
lacks an external id. So the claimed condition does not characterise the
drops. -/
theorem c7_counterexample :
    ¬ (((processMessage 0 "g1" true ⟨[], [], []⟩ msgNoId).emits = ([] : List EmitPayload) ∧
        (processMessage 0 "g1" true ⟨[], [], []⟩ msgNoId).db = ([] : List Lead)) ↔
       specDropCondition msgNoId = true) := by
  decide

/-! ## C1 — idempotence up to `updated_at` -/

/-- Claim C1, amended: For every normalized message event (non-empty body,
valid phone, with external id), applying the ingestion pipeline to the
same event twice in sequence with the DedupGate bypassed (its seen-id
cache cleared between the two applications) yields the same store of Lead
records as applying it once, except that `updated_at` reflects the later
application. -/
theorem c1_idempotent_up_to_updated_at
    (t1 t2 : Nat) (g1 g2 : String) (hasDbUrl : Bool) (st : ServerState)
    (msg : Msg) (wid c : String)
    (hid : strOr msg.id = some wid)
    (hbc : (msg.from_ == "status@broadcast") = false)
    (hblank : isBlank msg.body = false)
    (hseen : dedupSeen st.processed wid = false)
    (hvp : validatePhone (rawNumberOf msg) = .ok c) :
    (processMessage t2 g2 hasDbUrl
        { processMessage t1 g1 hasDbUrl st msg with processed := [] } msg).db.map
          stripUpdatedAt
      = (processMessage t1 g1 hasDbUrl st msg).db.map stripUpdatedAt := by
  have hlen := validatePhone_ok_not_short hvp
  rw [processMessage_run t2 g2 hasDbUrl
    { processMessage t1 g1 hasDbUrl st msg with processed := [] } msg wid hid hbc hblank
    rfl hlen]
  rw [processMessage_run t1 g1 hasDbUrl st msg wid hid hbc hblank hseen hlen]
  by_cases hdb : hasDbUrl = true
  · simp only [hdb, if_true]
    exact ingestApply_idem t1 t2 g1 g2 st.db (rawNumberOf msg) msg.body wid
      (resolveContactName ("+" ++ rawNumberOf msg) msg.contact) c hvp
      (strOr_eq_some hid)
  · simp [hdb]

/-- Witness for `c1_idempotent_up_to_updated_at` on the concrete event of
the counterexample. -/
theorem c1_witness :
    (processMessage 200 "g2" true
        { processMessage 100 "g1" true ⟨[], [], []⟩ msgSalam with processed := [] }
        msgSalam).db.map stripUpdatedAt
      = (processMessage 100 "g1" true ⟨[], [], []⟩ msgSalam).db.map stripUpdatedAt :=
  c1_idempotent_up_to_updated_at 100 200 "g1" "g2" true ⟨[], [], []⟩ msgSalam
    "m1" "994501112233" rfl (by decide) (by decide) rfl rfl

/-! ## C5 — contact-name handling -/

/-- The persistence step always writes the supplied contact name into the
rows with the event's phone (and into a freshly created lead), provided
the event's WhatsApp id is associated with no lead of another phone. -/
theorem ingestApply_name_set (now : Nat) (gid : String) (db : List Lead)
    (raw body wid cname c : String)
    (hvp : validatePhone raw = .ok c) (hwne : wid ≠ "") (hcne : cname ≠ "")
    (hwid : ∀ r ∈ db, r.whatsapp_id = some wid → r.phone = c) :
    ∀ l ∈ ingestApply now gid db raw body wid cname, l.phone = c →
      l.name = some cname := by
  rw [ingestApply_eq now gid db raw body wid cname c hvp hwne]
  have hK : widClash db c (some wid) = false := by
    simp only [widClash]
    rw [List.any_eq_false]
    intro r hr hcontra
    rw [Bool.and_eq_true] at hcontra
    have h2 : r.whatsapp_id = some wid := by simpa using hcontra.2
    have h3 := hwid r hr h2
    have h4 := hcontra.1
    rw [Bool.not_eq_true'] at h4
    rw [h3] at h4
    simp at h4
  by_cases hAB : ((db.find? fun l => l.whatsapp_id == some wid).isSome ||
      (db.find? fun l => l.phone == c).isSome) = true
  · rw [if_pos hAB, if_neg (by rw [hK]; simp)]
    intro l hl hlph
    rcases List.mem_map.mp hl with ⟨x, hx, rfl⟩
    by_cases hxc : (x.phone == c) = true
    · rw [if_pos hxc]
      simp [messageUpdate, strOr_some_of_ne hcne]
    · rw [if_neg hxc] at hlph
      exact absurd (by simp [hlph]) hxc
  · rw [if_neg hAB]
    rw [Bool.or_eq_true] at hAB
    push_neg at hAB
    have hA0 : db.find? (fun l => l.whatsapp_id == some wid) = none :=
      Option.not_isSome_iff_eq_none.mp (by simpa using hAB.1)
    have hB0 : db.find? (fun l => l.phone == c) = none :=
      Option.not_isSome_iff_eq_none.mp (by simpa using hAB.2)
    have hKall : widClashAll db (some wid) = false := by
      simp only [widClashAll]
      rw [List.any_eq_false]
      exact List.find?_eq_none.mp hA0
    rw [if_neg (by rw [hKall]; simp)]
    intro l hl hlph
    rcases List.mem_append.mp hl with hmem | hmem
    · exact absurd (by simp [hlph]) (List.find?_eq_none.mp hB0 l hmem)
    · simp only [List.mem_singleton] at hmem
      subst hmem
      exact strOr_some_of_ne hcne

/-- Claim C5, amended: An ingestion event whose contact-name resolution
supplies no real name does not leave `display_name` unchanged: the
pipeline substitutes the placeholder `'+' + rawNumber` and the update
overwrites `display_name` with it on every lead with the event's phone
(and on a newly created lead). -/
theorem c5_placeholder_name (now : Nat) (genId : String) (st : ServerState)
    (msg : Msg) (wid c : String)
    (hid : strOr msg.id = some wid)
    (hbc : (msg.from_ == "status@broadcast") = false)
    (hblank : isBlank msg.body = false)
    (hseen : dedupSeen st.processed wid = false)
    (hvp : validatePhone (rawNumberOf msg) = .ok c)
    (hwid : ∀ r ∈ st.db, r.whatsapp_id = some wid → r.phone = c)
    (hname : resolveContactName ("+" ++ rawNumberOf msg) msg.contact
      = "+" ++ rawNumberOf msg) :
    ∀ l ∈ (processMessage now genId true st msg).db, l.phone = c →
      l.name = some ("+" ++ rawNumberOf msg) := by
  rw [processMessage_run now genId true st msg wid hid hbc hblank hseen
    (validatePhone_ok_not_short hvp)]
  simp only [if_true]
  rw [hname]
  have hcne : ("+" ++ rawNumberOf msg) ≠ "" := by
    intro heq
    have hl := congrArg String.length heq
    rw [String.length_append] at hl
    have h1 : ("+" : String).length = 1 := rfl
    have h2 : ("" : String).length = 0 := rfl
    omega
  exact ingestApply_name_set now genId st.db (rawNumberOf msg) msg.body wid
    ("+" ++ rawNumberOf msg) c hvp (strOr_eq_some hid) hcne hwid

/-- Witness for `c5_placeholder_name`: the existing lead named `"Ali"`
receives the placeholder name `"+994501112233"`. -/
theorem c5_witness :
    ({ leadAli with
        last_message := some "Sifaris edirem"
        whatsapp_id := some "m2"
        name := some "+994501112233"
        updated_at := 30 } : Lead).name = some ("+" ++ rawNumberOf msgSifaris) :=
  c5_placeholder_name 30 "g1" ⟨[], [leadAli], []⟩ msgSifaris "m2" "994501112233"
    rfl (by decide) (by decide) rfl rfl (by decide) rfl
    { leadAli with
        last_message := some "Sifaris edirem"
        whatsapp_id := some "m2"
        name := some "+994501112233"
        updated_at := 30 }
    (by decide) (by decide)

/-! ## C7 — characterisation of dropped events -/

/-- Claim C7, amended: The pipeline drops a raw transport event before any
emission or store mutation — with no error raised and no retry — exactly
when the body is empty or whitespace-only, or the sender is the reserved
status-broadcast address, or the message carries no (non-empty) external
id, or the id is already in the seen-id cache, or the resolved raw number
has fewer than 5 characters. (The claim's three conditions alone do not
characterise the drops: a missing id also drops the event.) -/
theorem c7_drop_characterisation (now : Nat) (genId : String) (hasDbUrl : Bool)
    (st : ServerState) (msg : Msg) :
    ((processMessage now genId hasDbUrl st msg).emits = st.emits ∧
     (processMessage now genId hasDbUrl st msg).db = st.db) ↔
    dropCondition st msg = true := by
  by_cases hbc : (msg.from_ == "status@broadcast") = true
  · simp [processMessage, dropCondition, hbc]
  have hbc' : (msg.from_ == "status@broadcast") = false := by simpa using hbc
  by_cases hblank : isBlank msg.body = true
  · simp [processMessage, dropCondition, hbc', hblank]
  have hblank' : isBlank msg.body = false := by simpa using hblank
  cases hid : strOr msg.id with
  | none => simp [processMessage, dropCondition, hbc', hblank', hid]
  | some wid =>
    by_cases hseen : dedupSeen st.processed wid = true
    · rw [processMessage_drop_seen now genId hasDbUrl st msg wid hbc' hblank' hid hseen]
      simp [dropCondition, hbc', hblank', hid, hseen]
    have hseen' : dedupSeen st.processed wid = false := by simpa using hseen
    by_cases hlen : (rawNumberOf msg).length < 5
    · simp [processMessage, dropCondition, hbc', hblank', hid, hseen', hlen]
    · rw [processMessage_run now genId hasDbUrl st msg wid hid hbc' hblank' hseen' hlen]
      have hrhs : dropCondition st msg = false := by
        simp [dropCondition, hbc', hblank', hid, hseen', hlen]
      rw [hrhs]
      simp only [Bool.false_eq_true, iff_false, not_and]
      intro hemits
      exfalso
      have h2 := congrArg List.length hemits
      simp only [List.length_append] at h2
      revert h2
      split <;> simp

end Crm

